import Mathlib

/-!
# Shallow embedding of `SignalFormControl`

Embeds `packages/forms/signals/compat/src/signal_form_control/signal_form_control.ts`.
The file contains two variants of the class; the embedding follows the extended
variant (the one with `onChangeCallbacks` / `onDisabledChangeCallbacks`), whose
`prepareParentPropagation`, `notifyParent`, `setValue`, `patchValue`, `reset` and
value-change effect are textually identical to the basic variant's, except that the
three mutators additionally end with `emitModelChanges`, a step that touches only the
on-change log.

Modelling conventions:
* A JS value that may be `undefined` is an `Option`; the JS `undefined` is `none`.
* The `WritableSignal` ValueCell is the `source` field of the state; `source.set`
  is a functional update of that field.
* The externally supplied `FieldNode` is a record of the boolean flags and the
  ordered error list the adapter reads; the adapter never writes it.
* The parent is modelled by a `hasParent` flag plus an append-only log of the
  arguments of every `parent.updateValueAndValidity(...)` call the adapter makes.
* Registered callbacks are identified by `Nat` tokens; invoking them appends
  `(token, arguments)` entries to append-only logs, preserving invocation order.
* The two `effect`s installed in the constructor are the state transformers
  `valueChangeEffect` and `statusChangeEffect`; the reactive runtime that
  schedules them is external, so theorems quantify over when they fire.
-/

namespace SignalFormControl

/-- `FormControlStatus` from `@angular/forms`: the four statuses the `status`
getter can produce. -/
inductive FormControlStatus where
  | DISABLED
  | VALID
  | INVALID
  | PENDING
deriving DecidableEq, Repr

/-- One entry of the FieldNode's ordered error list: `{kind: string, context?: any}`.
The opaque `context` payload is modelled by a `Nat`, enough to distinguish two
errors of the same kind. -/
structure FieldError where
  kind : String
  context : Nat
deriving DecidableEq, Repr

/-- The externally supplied FieldNode as the adapter reads it: the derived boolean
flags `valid()`, `invalid()`, `dirty()`, `touched()`, `disabled()`, `pending()` and
the ordered error list `errors()` (which the host may report as absent: `none`). -/
structure FieldNode where
  valid : Bool
  invalid : Bool
  dirty : Bool
  touched : Bool
  disabled : Bool
  pending : Bool
  errors : Option (List FieldError)
deriving DecidableEq, Repr

/-- `ValueUpdateOptions` of the extended variant. Every member is optional in TS,
so each is an `Option Bool` (`none` = the property is absent/`undefined`). The
whole `options` argument being omitted is the all-`none` record: every access in
the source goes through `options?.x`, which then yields `undefined`. -/
structure ValueUpdateOptions where
  onlySelf : Option Bool
  emitEvent : Option Bool
  emitModelToViewChange : Option Bool
  emitViewToModelChange : Option Bool
deriving DecidableEq, Repr

/-- The argument object of one `parent.updateValueAndValidity({...})` call made by
the adapter: the forwarded `emitEvent` (absent = `none`: the value-change effect
passes no `emitEvent` at all) and whether `sourceControl` is the adapter itself
(it always is, in every call site of the source). -/
structure ParentUpdateCall where
  emitEvent : Option Bool
  sourceIsSelf : Bool
deriving DecidableEq, Repr

/-- The mutable state of one `SignalFormControl` instance together with the logs
of its observable interactions. `ν` is the payload type of the wrapped value. -/
structure ControlState (ν : Type) where
  /-- the ValueCell: `this.source()`; `none` is JS `undefined` -/
  source : Option ν
  /-- `this.pendingParentNotifications`; `Int` so that non-negativity is a fact
  to prove, not a typing artifact -/
  pendingParentNotifications : Int
  /-- whether `this.parent` is non-null (attachment is managed externally) -/
  hasParent : Bool
  /-- append-only log of the `parent.updateValueAndValidity` calls made so far -/
  parentCalls : List ParentUpdateCall
  /-- the current FieldNode snapshot `this.field()` (recomputed externally) -/
  field : FieldNode
  /-- tokens of the callbacks registered via `registerOnChange`, in order -/
  onChangeCallbacks : List Nat
  /-- append-only log of on-change invocations: `(token, value, emitModelEvent)` -/
  onChangeLog : List (Nat × Option ν × Bool)
  /-- tokens registered via `registerOnDisabledChange`, in order -/
  onDisabledChangeCallbacks : List Nat
  /-- append-only log of on-disabled-change invocations: `(token, isDisabled)` -/
  disabledChangeLog : List (Nat × Bool)
  /-- `this.lastDisabledState`, initially `undefined` -/
  lastDisabledState : Option Bool
  /-- values emitted on the `valueChanges` stream, in order -/
  valueChanges : List (Option ν)
  /-- statuses emitted on the `statusChanges` stream, in order -/
  statusChanges : List FormControlStatus
deriving DecidableEq, Repr

/-- The state right after the constructor ran: counter `0`, no parent yet, no
callbacks registered, `lastDisabledState` still `undefined`, empty logs. -/
def initialControlState (ν : Type) (source : Option ν) (field : FieldNode) :
    ControlState ν where
  source := source
  pendingParentNotifications := 0
  hasParent := false
  parentCalls := []
  field := field
  onChangeCallbacks := []
  onChangeLog := []
  onDisabledChangeCallbacks := []
  disabledChangeLog := []
  lastDisabledState := none
  valueChanges := []
  statusChanges := []

/-- JS `x !== false` for `x : boolean | undefined`. -/
def jsNotFalse : Option Bool → Bool
  | some false => false
  | _ => true

/-- `private prepareParentPropagation(options)`: returns whether a non-null parent
was handed back (to be notified imperatively) together with the updated state.
`options?.onlySelf` being truthy is `onlySelf = some true`. -/
def prepareParentPropagation (s : ControlState ν) (options : ValueUpdateOptions) :
    Bool × ControlState ν :=
  if options.onlySelf = some true then
    (false, { s with pendingParentNotifications := s.pendingParentNotifications + 1 })
  else if s.hasParent then
    (true, { s with pendingParentNotifications := s.pendingParentNotifications + 1 })
  else
    (false, s)

/-- `private notifyParent(parent, options)`: if the handed-back parent is non-null,
call its `updateValueAndValidity` with the forwarded `emitEvent` and
`sourceControl: this`. -/
def notifyParent (s : ControlState ν) (parentPresent : Bool)
    (options : ValueUpdateOptions) : ControlState ν :=
  if parentPresent then
    { s with parentCalls := s.parentCalls ++ [⟨options.emitEvent, true⟩] }
  else
    s

/-- `private emitModelChanges(value, options)` (extended variant): unless
`options?.emitModelToViewChange === false`, invoke every registered on-change
callback with `(value, options?.emitViewToModelChange !== false)`. -/
def emitModelChanges (s : ControlState ν) (value : Option ν)
    (options : ValueUpdateOptions) : ControlState ν :=
  if options.emitModelToViewChange = some false then
    s
  else
    { s with onChangeLog := s.onChangeLog ++
        s.onChangeCallbacks.map (fun cb => (cb, value, jsNotFalse options.emitViewToModelChange)) }

/-- `setValue(value, options)` of the extended variant. -/
def setValue (s : ControlState ν) (value : Option ν)
    (options : ValueUpdateOptions) : ControlState ν :=
  let r := prepareParentPropagation s options
  let s2 := { r.2 with source := value }
  let s3 := notifyParent s2 r.1 options
  emitModelChanges s3 value options

/-- `patchValue(value, options)` of the extended variant (its body is literally
that of `setValue`). -/
def patchValue (s : ControlState ν) (value : Option ν)
    (options : ValueUpdateOptions) : ControlState ν :=
  let r := prepareParentPropagation s options
  let s2 := { r.2 with source := value }
  let s3 := notifyParent s2 r.1 options
  emitModelChanges s3 value options

/-- `reset(value?, options)` of the extended variant: the supplied-value branch is
guarded by `value !== undefined` (`value` matching `some v`); otherwise, if
`options?.onlySelf` is not truthy, just ask the parent (when present) to
revalidate, forwarding `emitEvent` and citing self as `sourceControl`. -/
def reset (s : ControlState ν) (value : Option ν)
    (options : ValueUpdateOptions) : ControlState ν :=
  match value with
  | some v =>
      let r := prepareParentPropagation s options
      let s2 := { r.2 with source := some v }
      let s3 := notifyParent s2 r.1 options
      emitModelChanges s3 (some v) options
  | none =>
      if options.onlySelf = some true then
        s
      else if s.hasParent then
        { s with parentCalls := s.parentCalls ++ [⟨options.emitEvent, true⟩] }
      else
        s

/-- The value-change `effect` installed in the constructor: read the current
source value; if the pending counter is positive decrement it, else notify the
parent (when present) with `{sourceControl: this}` (no `emitEvent` property);
then emit the value on `valueChanges`. -/
def valueChangeEffect (s : ControlState ν) : ControlState ν :=
  let currentValue := s.source
  let s1 :=
    if 0 < s.pendingParentNotifications then
      { s with pendingParentNotifications := s.pendingParentNotifications - 1 }
    else if s.hasParent then
      { s with parentCalls := s.parentCalls ++ [⟨none, true⟩] }
    else
      s
  { s1 with valueChanges := s1.valueChanges ++ [currentValue] }

/-- `get status()`: DISABLED, else VALID, else INVALID, else PENDING, read fresh
from the FieldNode. -/
def status (f : FieldNode) : FormControlStatus :=
  if f.disabled then .DISABLED
  else if f.valid then .VALID
  else if f.invalid then .INVALID
  else .PENDING

/-- The status-change `effect` of the extended variant: emit the current status on
`statusChanges`; then, with `isDisabled := this.disabled`, initialize
`lastDisabledState` on first evaluation, and on later evaluations invoke every
registered on-disabled-change callback with `isDisabled` exactly when it differs
from the remembered value. -/
def statusChangeEffect (s : ControlState ν) : ControlState ν :=
  let s1 := { s with statusChanges := s.statusChanges ++ [status s.field] }
  let isDisabled := s1.field.disabled
  match s1.lastDisabledState with
  | none => { s1 with lastDisabledState := some isDisabled }
  | some last =>
      if last ≠ isDisabled then
        { s1 with lastDisabledState := some isDisabled,
                  disabledChangeLog := s1.disabledChangeLog ++
                    s1.onDisabledChangeCallbacks.map (fun cb => (cb, isDisabled)) }
      else
        s1

/-- The `errors` getter's fold: `for (const error of errors) result[error.kind] = error`,
building a map from kind to error where a later entry of the same kind overwrites
the earlier one. The JS object is modelled as a function from keys to optional
entries. -/
def errorsMap (l : List FieldError) : String → Option FieldError :=
  l.foldl (fun result e => fun k => if k = e.kind then some e else result k)
    (fun _ => none)

/-- The `errors` getter: `null` when the FieldNode's list is absent or empty,
otherwise the folded kind-keyed map. -/
def errors (f : FieldNode) : Option (String → Option FieldError) :=
  match f.errors with
  | none => none
  | some l => if l.length = 0 then none else some (errorsMap l)

/-- One externally triggerable transition of the adapter: an imperative mutator
call or the firing of one of the two reactive observers. -/
inductive Op (ν : Type) where
  | setV (value : Option ν) (options : ValueUpdateOptions)
  | patchV (value : Option ν) (options : ValueUpdateOptions)
  | resetV (value : Option ν) (options : ValueUpdateOptions)
  | fireValueChange
  | fireStatusChange

/-- Apply one transition. -/
def applyOp (s : ControlState ν) : Op ν → ControlState ν
  | .setV v o => setValue s v o
  | .patchV v o => patchValue s v o
  | .resetV v o => reset s v o
  | .fireValueChange => valueChangeEffect s
  | .fireStatusChange => statusChangeEffect s

/-- Run a sequence of transitions. -/
def runOps (s : ControlState ν) (ops : List (Op ν)) : ControlState ν :=
  ops.foldl applyOp s

/-- A concrete FieldNode sample: valid, enabled, no errors. -/
def sampleField : FieldNode := ⟨true, false, false, false, false, false, none⟩

/-- The all-absent options record: `setValue(v)` with no options argument. -/
def noOpts : ValueUpdateOptions := ⟨none, none, none, none⟩

/-- A freshly constructed control with no parent attached. -/
def orphanState : ControlState Int := initialControlState Int (some 0) sampleField

/-- A freshly constructed control that has been attached under a parent. -/
def parentState : ControlState Int :=
  { initialControlState Int (some 0) sampleField with hasParent := true }

/-- C2: for every combination of the FieldNode boolean flags, `status` returns
exactly one of the four statuses by the fixed precedence DISABLED, else VALID,
else INVALID, else PENDING. `status` is a pure function of the current FieldNode
snapshot (the embedding has no cache field), so it is recomputed on every read. -/
theorem status_precedence (f : FieldNode) :
    (status f = .DISABLED ↔ f.disabled = true) ∧
    (status f = .VALID ↔ f.disabled = false ∧ f.valid = true) ∧
    (status f = .INVALID ↔ f.disabled = false ∧ f.valid = false ∧ f.invalid = true) ∧
    (status f = .PENDING ↔ f.disabled = false ∧ f.valid = false ∧ f.invalid = false) := by
  rcases f with ⟨v, i, dr, tc, d, p, e⟩
  cases d <;> cases v <;> cases i <;> simp [status]

/-- C4: `patchValue(v, o)` is extensionally equal to `setValue(v, o)`, and
`reset(v, o)` with a supplied (non-`undefined`) value is extensionally equal to
`setValue(v, o)`: the resulting states agree in every component, so the ValueCell
write, counter update, parent notification and on-change emission coincide. -/
theorem patchValue_reset_eq_setValue (ν : Type) (s : ControlState ν) (v : Option ν)
    (x : ν) (o : ValueUpdateOptions) :
    patchValue s v o = setValue s v o ∧ reset s (some x) o = setValue s (some x) o :=
  ⟨rfl, rfl⟩

/-- C10: `reset` with value `undefined` (the same call as `reset` with no value at
all, since the optional TS parameter defaults to `undefined`) never writes the
ValueCell and never touches the counter; `reset` can only leave the ValueCell
`undefined` if it already was; yet `setValue(undefined, o)` does write `undefined`
into the ValueCell. -/
theorem reset_never_writes_undefined (ν : Type) (s : ControlState ν) (v : Option ν)
    (o : ValueUpdateOptions) :
    (reset s none o).source = s.source ∧
    (reset s none o).pendingParentNotifications = s.pendingParentNotifications ∧
    ((reset s v o).source = none ↔ v = none ∧ s.source = none) ∧
    (setValue s none o).source = none := by
  refine ⟨?_, ?_, ?_, ?_⟩
  · simp only [reset]
    split <;> (try split) <;> rfl
  · simp only [reset]
    split <;> (try split) <;> rfl
  · cases v with
    | none =>
        simp only [reset, true_and]
        split <;> (try split) <;> rfl
    | some x =>
        simp only [reset, setValue, notifyParent, emitModelChanges]
        constructor
        · intro h
          exfalso
          revert h
          split <;> split <;> simp
        · rintro ⟨h, -⟩
          exact absurd h (by simp)
  · simp only [setValue, notifyParent, emitModelChanges]
    split <;> split <;> rfl

/-- C3 counterexample: at a concrete control with no parent attached and
`onlySelf` unset, a `setValue` call leaves the pending-notification counter at
`0` — `prepareParentPropagation` does not increment it — whereas the claim
states the increment happens even in the no-parent, `onlySelf`-unset case. -/
theorem setValue_no_parent_counter_not_incremented :
    orphanState.hasParent = false ∧
    noOpts.onlySelf ≠ some true ∧
    orphanState.pendingParentNotifications = 0 ∧
    ((prepareParentPropagation orphanState noOpts).2).pendingParentNotifications = 0 ∧
    (setValue orphanState (some 1) noOpts).pendingParentNotifications = 0 :=
  ⟨rfl, by decide, rfl, rfl, rfl⟩

/-- C3 (amended): if `opts.onlySelf` is truthy the counter is incremented and no
parent is handed back for imperative notification; otherwise, if a parent is
attached, the counter is incremented and the parent is handed back; otherwise
(no parent, `onlySelf` unset) the state is unchanged — no increment — and no
parent is handed back. `notifyParent` performs the imperative call exactly when
a parent was handed back. -/
theorem prepareParentPropagation_cases (ν : Type) (s : ControlState ν)
    (o : ValueUpdateOptions) :
    (o.onlySelf = some true →
      ((prepareParentPropagation s o).2.pendingParentNotifications
          = s.pendingParentNotifications + 1 ∧
       (prepareParentPropagation s o).1 = false)) ∧
    (o.onlySelf ≠ some true → s.hasParent = true →
      ((prepareParentPropagation s o).2.pendingParentNotifications
          = s.pendingParentNotifications + 1 ∧
       (prepareParentPropagation s o).1 = true)) ∧
    (o.onlySelf ≠ some true → s.hasParent = false →
      ((prepareParentPropagation s o).2 = s ∧
       (prepareParentPropagation s o).1 = false)) ∧
    (∀ (p : Bool), (notifyParent s p o).parentCalls =
      s.parentCalls ++ if p then [⟨o.emitEvent, true⟩] else []) := by
  refine ⟨fun h => ?_, fun h hp => ?_, fun h hp => ?_, fun p => ?_⟩
  · simp [prepareParentPropagation, h]
  · simp [prepareParentPropagation, h, hp]
  · simp [prepareParentPropagation, h, hp]
  · cases p <;> simp [notifyParent]

/-- C3 witness: the amended claim evaluated at a concrete control with a parent
and at a concrete control without one, both with `onlySelf` unset. -/
theorem prepareParentPropagation_cases_witness :
    ((prepareParentPropagation parentState noOpts).2.pendingParentNotifications
        = parentState.pendingParentNotifications + 1 ∧
     (prepareParentPropagation parentState noOpts).1 = true) ∧
    ((prepareParentPropagation orphanState noOpts).2 = orphanState ∧
     (prepareParentPropagation orphanState noOpts).1 = false) :=
  ⟨(prepareParentPropagation_cases Int parentState noOpts).2.1 (by decide) rfl,
   (prepareParentPropagation_cases Int orphanState noOpts).2.2.1 (by decide) rfl⟩

/-- C6: `reset` with no value supplied and `onlySelf` not set leaves every
component of the state unchanged — in particular the ValueCell and the counter —
except that, when a parent is attached, exactly one
`parent.updateValueAndValidity` call is made, with `opts.emitEvent` forwarded
and this control cited as `sourceControl`. -/
theorem reset_no_value_frame (ν : Type) (s : ControlState ν) (o : ValueUpdateOptions)
    (h : o.onlySelf ≠ some true) :
    reset s none o =
      { s with parentCalls := s.parentCalls ++
          (if s.hasParent then [⟨o.emitEvent, true⟩] else []) } := by
  rcases s with ⟨src, pend, hasP, pc, f, occ, ocl, odc, dcl, lds, vc, sc⟩
  by_cases hp : hasP
  · simp [reset, h, hp]
  · simp [reset, h, hp]

/-- C6 witness: the frame property evaluated at a concrete attached control and
absent options. -/
theorem reset_no_value_frame_witness :
    reset parentState none noOpts =
      { parentState with parentCalls := parentState.parentCalls ++
          (if parentState.hasParent then [⟨noOpts.emitEvent, true⟩] else []) } :=
  reset_no_value_frame Int parentState noOpts (by decide)

/-- C1: one `setValue` (or `patchValue`) call on a control with a parent attached
and `onlySelf` unset, followed by the firing of the value-change observer,
produces exactly one `parent.updateValueAndValidity` call in total (the
imperative path notifies, the observer sees the positive counter and decrements
instead), and the counter returns to its prior value. The hypothesis
`0 ≤ pendingParentNotifications` is the reachable-state invariant proved for C9. -/
theorem setValue_parent_revalidated_exactly_once (ν : Type) (s : ControlState ν)
    (v : Option ν) (o : ValueUpdateOptions)
    (hp : s.hasParent = true) (ho : o.onlySelf ≠ some true)
    (hc : 0 ≤ s.pendingParentNotifications) :
    (valueChangeEffect (setValue s v o)).parentCalls.length = s.parentCalls.length + 1 ∧
    (valueChangeEffect (setValue s v o)).pendingParentNotifications
        = s.pendingParentNotifications ∧
    (valueChangeEffect (patchValue s v o)).parentCalls.length = s.parentCalls.length + 1 := by
  have h1 : (0 : Int) < s.pendingParentNotifications + 1 := by omega
  by_cases hm : o.emitModelToViewChange = some false <;>
    simp [setValue, patchValue, prepareParentPropagation, notifyParent, emitModelChanges,
          valueChangeEffect, ho, hp, hm, h1]

/-- C1 witness: a concrete attached control, a concrete value and absent options. -/
theorem setValue_parent_revalidated_exactly_once_witness :
    parentState.hasParent = true ∧ noOpts.onlySelf ≠ some true ∧
    (0 : Int) ≤ parentState.pendingParentNotifications ∧
    (valueChangeEffect (setValue parentState (some 5) noOpts)).parentCalls.length
        = parentState.parentCalls.length + 1 :=
  ⟨rfl, by decide, by decide,
   (setValue_parent_revalidated_exactly_once Int parentState (some 5) noOpts rfl
     (by decide) (by decide)).1⟩

/-- C8: in the extended variant, `setValue`, `patchValue` and `reset` with a
supplied value invoke no on-change callback when
`opts.emitModelToViewChange === false`, and otherwise invoke every registered
on-change callback exactly once, in registration order, with the new value and
`opts.emitViewToModelChange !== false`. -/
theorem mutators_emit_onChange (ν : Type) (s : ControlState ν) (v : Option ν) (x : ν)
    (o : ValueUpdateOptions) :
    ((setValue s v o).onChangeLog = s.onChangeLog ++
      (if o.emitModelToViewChange = some false then []
       else s.onChangeCallbacks.map
         (fun cb => (cb, v, jsNotFalse o.emitViewToModelChange)))) ∧
    ((patchValue s v o).onChangeLog = s.onChangeLog ++
      (if o.emitModelToViewChange = some false then []
       else s.onChangeCallbacks.map
         (fun cb => (cb, v, jsNotFalse o.emitViewToModelChange)))) ∧
    ((reset s (some x) o).onChangeLog = s.onChangeLog ++
      (if o.emitModelToViewChange = some false then []
       else s.onChangeCallbacks.map
         (fun cb => (cb, some x, jsNotFalse o.emitViewToModelChange)))) := by
  by_cases hm : o.emitModelToViewChange = some false <;>
    by_cases ho : o.onlySelf = some true <;>
    by_cases hp : s.hasParent <;>
    simp [setValue, patchValue, reset, prepareParentPropagation, notifyParent,
          emitModelChanges, hm, ho, hp]

/-- C7: in the extended variant, the on-disabled-change callbacks are never
invoked on the first evaluation of the status-change observer (the last-seen
disabled state is only initialized then), and on every later evaluation they are
all invoked, with the new disabled boolean, exactly when it differs from the
last-seen value. -/
theorem statusChangeEffect_disabled_callbacks (ν : Type) (s : ControlState ν) :
    (s.lastDisabledState = none →
      ((statusChangeEffect s).disabledChangeLog = s.disabledChangeLog ∧
       (statusChangeEffect s).lastDisabledState = some s.field.disabled)) ∧
    (∀ (b : Bool), s.lastDisabledState = some b →
      ((statusChangeEffect s).disabledChangeLog = s.disabledChangeLog ++
        (if b ≠ s.field.disabled
         then s.onDisabledChangeCallbacks.map (fun cb => (cb, s.field.disabled))
         else []) ∧
       (statusChangeEffect s).lastDisabledState = some s.field.disabled)) := by
  constructor
  · intro h
    simp [statusChangeEffect, h]
  · intro b h
    by_cases hb : b = s.field.disabled <;> simp [statusChangeEffect, h, hb]

/-- A control in a later evaluation cycle: last-seen disabled state `true`, one
registered on-disabled-change callback, while the FieldNode now reports enabled. -/
def togState : ControlState Int :=
  { initialControlState Int (some 0) sampleField with
      lastDisabledState := some true, onDisabledChangeCallbacks := [7] }

/-- C7 witness: the first-evaluation branch at a fresh control and the toggled
branch at a control whose remembered disabled state differs from the current one. -/
theorem statusChangeEffect_disabled_callbacks_witness :
    ((statusChangeEffect orphanState).disabledChangeLog = orphanState.disabledChangeLog ∧
     (statusChangeEffect orphanState).lastDisabledState
        = some orphanState.field.disabled) ∧
    ((statusChangeEffect togState).disabledChangeLog = togState.disabledChangeLog ++
      (if true ≠ togState.field.disabled
       then togState.onDisabledChangeCallbacks.map (fun cb => (cb, togState.field.disabled))
       else []) ∧
     (statusChangeEffect togState).lastDisabledState = some togState.field.disabled) :=
  ⟨(statusChangeEffect_disabled_callbacks Int orphanState).1 rfl,
   (statusChangeEffect_disabled_callbacks Int togState).2 true rfl⟩

/-- `find?` on an appended list looks in the left part first. -/
lemma find?_append_alt {α : Type} (l1 l2 : List α) (p : α → Bool) :
    (l1 ++ l2).find? p =
      match l1.find? p with
      | some x => some x
      | none => l2.find? p := by
  induction l1 with
  | nil => rfl
  | cons a t ih =>
      by_cases h : p a
      · simp [List.find?_cons_of_pos _ h]
      · simp [List.find?_cons_of_neg _ h, ih]

/-- The `errors` fold, from any starting map, answers each key with the last
error of that kind in the list, falling back to the starting map. -/
lemma errorsMap_foldl (l : List FieldError) (m : String → Option FieldError)
    (k : String) :
    (l.foldl (fun result e => fun k2 => if k2 = e.kind then some e else result k2) m) k =
      match l.reverse.find? (fun e => e.kind == k) with
      | some e => some e
      | none => m k := by
  induction l generalizing m with
  | nil => rfl
  | cons e t ih =>
      simp only [List.foldl_cons, List.reverse_cons]
      rw [ih, find?_append_alt]
      rcases hf : t.reverse.find? (fun e2 => e2.kind == k) with _ | e'
      · rw [hf]
        by_cases hk : k = e.kind
        · have hke : (e.kind == k) = true := by simp [hk.symm]
          simp [List.find?, hke, hk]
        · have hke : (e.kind == k) = false := by
            simp only [beq_eq_false_iff_ne, ne_eq]
            exact fun hh => hk hh.symm
          simp [List.find?, hke, hk]
      · rw [hf]

/-- C5: the `errors` getter returns `null` exactly when the FieldNode's error
list is absent or empty; otherwise it returns the kind-keyed map folded from the
ordered list, and that map answers each kind with the LAST error of that kind in
the list (last-write-wins). The getter is a pure function of the FieldNode, so
the underlying ordered list is not modified. -/
theorem errors_last_write_wins (f : FieldNode) :
    (errors f = none ↔ f.errors = none ∨ f.errors = some []) ∧
    (∀ (l : List FieldError), f.errors = some l → l ≠ [] →
      errors f = some (errorsMap l)) ∧
    (∀ (l : List FieldError) (k : String),
      errorsMap l k = l.reverse.find? (fun e => e.kind == k)) := by
  refine ⟨?_, ?_, ?_⟩
  · rcases hf : f.errors with _ | l
    · simp [errors, hf]
    · cases l <;> simp [errors, hf]
  · intro l hl hne
    have hlen : l.length ≠ 0 := by simpa using hne
    simp [errors, hl, hlen]
  · intro l k
    have h := errorsMap_foldl l (fun _ => none) k
    unfold errorsMap
    rw [h]
    rcases hf : l.reverse.find? (fun e => e.kind == k) with _ | e' <;> rw [hf]

/-- A concrete error list with a duplicated kind. -/
def errList : List FieldError := [⟨"required", 1⟩, ⟨"min", 2⟩, ⟨"required", 3⟩]

/-- A FieldNode reporting the concrete error list `errList`. -/
def errField : FieldNode := ⟨false, true, false, false, false, false, some errList⟩

/-- C5 witness: on the concrete list with a duplicated `"required"` kind, the
getter returns the folded map, which answers `"required"` with the later entry,
`"min"` with its single entry, and an unmentioned kind with nothing. -/
theorem errors_last_write_wins_witness :
    errors errField = some (errorsMap errList) ∧
    errorsMap errList "required" = some ⟨"required", 3⟩ ∧
    errorsMap errList "min" = some ⟨"min", 2⟩ ∧
    errorsMap errList "max" = none := by
  have h := errors_last_write_wins errField
  refine ⟨h.2.1 errList rfl (by decide), ?_, ?_, ?_⟩
  · rw [h.2.2 errList "required"]; decide
  · rw [h.2.2 errList "min"]; decide
  · rw [h.2.2 errList "max"]; decide

/-- Every single transition preserves non-negativity of the pending counter:
the mutators only ever increment it, and the value-change observer decrements it
only under its strict-positivity guard. -/
lemma applyOp_pending_nonneg {ν : Type} (s : ControlState ν) (op : Op ν)
    (h : 0 ≤ s.pendingParentNotifications) :
    0 ≤ (applyOp s op).pendingParentNotifications := by
  cases op with
  | setV v o =>
      simp only [applyOp, setValue, prepareParentPropagation, notifyParent,
        emitModelChanges]
      split_ifs <;> simp <;> omega
  | patchV v o =>
      simp only [applyOp, patchValue, prepareParentPropagation, notifyParent,
        emitModelChanges]
      split_ifs <;> simp <;> omega
  | resetV v o =>
      cases v with
      | none =>
          simp only [applyOp, reset]
          split_ifs <;> exact h
      | some x =>
          simp only [applyOp, reset, prepareParentPropagation, notifyParent,
            emitModelChanges]
          split_ifs <;> simp <;> omega
  | fireValueChange =>
      simp only [applyOp, valueChangeEffect]
      split_ifs with h1 h2
      · simp only
        omega
      · exact h
      · exact h
  | fireStatusChange =>
      simp only [applyOp, statusChangeEffect]
      rcases s.lastDisabledState with _ | b
      · exact h
      · by_cases hb : b = s.field.disabled <;> simpa [hb] using h

/-- C9: the pending-notification counter starts at `0` and no sequence of
`setValue`/`patchValue`/`reset` calls and reactive-observer firings can drive it
below zero: every transition from a state with a non-negative counter yields a
non-negative counter. -/
theorem pendingParentNotifications_nonneg (ν : Type) (src : Option ν) (f : FieldNode)
    (s : ControlState ν) (ops : List (Op ν))
    (h : 0 ≤ s.pendingParentNotifications) :
    0 ≤ (runOps s ops).pendingParentNotifications ∧
    (initialControlState ν src f).pendingParentNotifications = 0 := by
  refine ⟨?_, rfl⟩
  induction ops generalizing s with
  | nil => exact h
  | cons op ops ih => exact ih (applyOp s op) (applyOp_pending_nonneg s op h)

/-- C9 witness: a concrete run — a mutation, an observer firing, then a
no-value reset — starting from the freshly constructed state. -/
theorem pendingParentNotifications_nonneg_witness :
    (0 : Int) ≤ (runOps (initialControlState Int (some 0) sampleField)
        [Op.setV (some 1) noOpts, Op.fireValueChange,
         Op.resetV none noOpts]).pendingParentNotifications ∧
    (initialControlState Int (some 0) sampleField).pendingParentNotifications = 0 :=
  pendingParentNotifications_nonneg Int (some 0) sampleField
    (initialControlState Int (some 0) sampleField)
    [Op.setV (some 1) noOpts, Op.fireValueChange, Op.resetV none noOpts]
    (by decide)

end SignalFormControl
